import Mathlib

/-!
Verification of the VarViz3D frontend pipeline utilities.

The definitions below are shallow embeddings of the TypeScript sources:
  * `frontend/utils/api.ts` (cacheManager, analyzeVariantsBatch, getGeneSuggestions),
  * `frontend/components/VariantTable.tsx` (headCells formatters, renderScore, table cells),
  * `frontend/utils/colors.ts` (hexToRgb, rgbToHex),
  * `frontend/components/VariantInput.tsx` (parseHGVS, parseVCF, addHGVSVariants).
Numbers stored in JS values are modelled as rationals, JS `Date.now()`
timestamps as integers, and `localStorage` as an association list from
string keys to stored items.
-/

namespace VarViz

/-- A JSON-serializable JavaScript value, as handled by `JSON.stringify` /
`JSON.parse` in the cache layer. -/
inductive Json where
  | null
  | bool (b : Bool)
  | num (q : ℚ)
  | str (s : String)
  | arr (elems : List Json)
  | obj (fields : List (String × Json))

/-- One `localStorage` slot: either a well-formed cache record
`JSON.stringify({data, expiry})` written by `cacheManager.set`, or an
arbitrary string written by other code (whose parse as a cache record fails). -/
inductive Stored where
  | entry (data : Json) (expiry : Int)
  | raw (s : String)

/-- The browser `localStorage`: key/value slots, modelled as an association
list with lookup by first match. -/
abbrev Store := List (String × Stored)

/-- `localStorage.getItem`. -/
def getItem : Store → String → Option Stored
  | [], _ => none
  | (a, v) :: st, k => if a = k then some v else getItem st k

/-- `localStorage.removeItem`. -/
def removeItem : Store → String → Store
  | [], _ => []
  | (a, v) :: st, k => if a = k then removeItem st k else (a, v) :: removeItem st k

/-- `localStorage.setItem` (replaces any previous value under the key). -/
def setItem (st : Store) (k : String) (v : Stored) : Store :=
  removeItem st k ++ [(k, v)]

/-- `Object.keys(localStorage)`. -/
def storeKeys (st : Store) : List String := st.map (·.1)

/-- The storage key used by `cacheManager`: `` `varviz_${key}` ``. -/
def cacheKey (k : String) : String := "varviz_" ++ k

/-- `cacheManager.get` from `frontend/utils/api.ts`: reads
`localStorage.getItem('varviz_' + key)`; a missing or unparsable item gives
`null`; an item whose `expiry` is strictly in the past is removed and `null`
is returned; otherwise the stored `data` is returned.  The first component is
the returned value, the second the `localStorage` state afterwards. -/
def cacheGet (now : Int) (k : String) (st : Store) : Option Json × Store :=
  match getItem st (cacheKey k) with
  | none => (none, st)
  | some (.raw _) => (none, st)
  | some (.entry d e) => if e < now then (none, removeItem st (cacheKey k)) else (some d, st)

/-- `cacheManager.set` from `frontend/utils/api.ts`: stores
`{data, expiry: Date.now() + ttlMinutes * 60 * 1000}` under `'varviz_' + key`. -/
def cacheSet (now : Int) (k : String) (d : Json) (ttlMinutes : Int) (st : Store) : Store :=
  setItem st (cacheKey k) (.entry d (now + ttlMinutes * 60000))

/-- `cacheManager.clear` from `frontend/utils/api.ts`:
`Object.keys(localStorage).filter(k => k.startsWith('varviz_')).forEach(removeItem)`. -/
def cacheClear (st : Store) : Store :=
  ((storeKeys st).filter (fun k => k.startsWith "varviz_")).foldl removeItem st

lemma getItem_removeItem_self (st : Store) (k : String) :
    getItem (removeItem st k) k = none := by
  induction st with
  | nil => rfl
  | cons p st ih =>
    obtain ⟨a, v⟩ := p
    by_cases h : a = k
    · simpa [removeItem, h] using ih
    · simpa [removeItem, getItem, h] using ih

lemma getItem_removeItem_ne (st : Store) (k k' : String) (h : k' ≠ k) :
    getItem (removeItem st k) k' = getItem st k' := by
  induction st with
  | nil => rfl
  | cons p st ih =>
    obtain ⟨a, v⟩ := p
    by_cases hp : a = k
    · subst hp
      simpa [removeItem, getItem, Ne.symm h] using ih
    · by_cases hq : a = k'
      · simp [removeItem, getItem, hp, hq, h]
      · simpa [removeItem, getItem, hp, hq] using ih

lemma getItem_eq_none_of_not_mem (st : Store) (k : String)
    (h : k ∉ storeKeys st) : getItem st k = none := by
  induction st with
  | nil => rfl
  | cons p st ih =>
    obtain ⟨a, v⟩ := p
    simp only [storeKeys, List.map_cons, List.mem_cons] at h
    push_neg at h
    have := ih (by simpa [storeKeys] using h.2)
    simpa [getItem, Ne.symm h.1] using this

lemma getItem_foldl_removeItem (L : List String) (st : Store) (k : String) :
    getItem (L.foldl removeItem st) k = if k ∈ L then none else getItem st k := by
  induction L generalizing st with
  | nil => simp
  | cons a L ih =>
    simp only [List.foldl_cons, ih]
    by_cases hL : k ∈ L
    · simp [hL]
    · by_cases ha : k = a
      · subst ha
        simp [hL, getItem_removeItem_self]
      · simp [hL, ha, getItem_removeItem_ne st a k ha]

lemma getItem_append (l₁ l₂ : Store) (k : String) :
    getItem (l₁ ++ l₂) k =
      match getItem l₁ k with
      | some v => some v
      | none => getItem l₂ k := by
  induction l₁ with
  | nil => simp [getItem]
  | cons p l₁ ih =>
    obtain ⟨a, v⟩ := p
    by_cases h : a = k
    · simp [getItem, h]
    · simpa [getItem, h] using ih

lemma getItem_setItem_self (st : Store) (k : String) (v : Stored) :
    getItem (setItem st k v) k = some v := by
  simp [setItem, getItem_append, getItem_removeItem_self, getItem]

lemma getItem_setItem_ne (st : Store) (k k' : String) (v : Stored) (h : k' ≠ k) :
    getItem (setItem st k v) k' = getItem st k' := by
  rw [setItem, getItem_append, getItem_removeItem_ne st k k' h]
  cases hg : getItem st k' with
  | none => simp [getItem, Ne.symm h]
  | some w => simp

/-- A fresh-enough cache entry is returned verbatim and the store is untouched. -/
lemma cacheGet_cacheSet_le (st : Store) (k : String) (d : Json) (ttl t0 t1 : Int)
    (h : t1 ≤ t0 + ttl * 60000) :
    cacheGet t1 k (cacheSet t0 k d ttl st) = (some d, cacheSet t0 k d ttl st) := by
  unfold cacheGet cacheSet
  rw [getItem_setItem_self]
  simp [not_lt.mpr h]

/-- An expired cache entry is removed by lookup and `null` is returned. -/
lemma cacheGet_cacheSet_gt (st : Store) (k : String) (d : Json) (ttl t0 t1 : Int)
    (h : t0 + ttl * 60000 < t1) :
    cacheGet t1 k (cacheSet t0 k d ttl st) =
      (none, removeItem (cacheSet t0 k d ttl st) (cacheKey k)) := by
  unfold cacheGet cacheSet
  rw [getItem_setItem_self]
  simp [h]

/-- A cache hit leaves the store unchanged. -/
lemma cacheGet_fst_some (now : Int) (k : String) (st : Store) (v : Json)
    (h : (cacheGet now k st).1 = some v) : cacheGet now k st = (some v, st) := by
  unfold cacheGet at h ⊢
  cases hg : getItem st (cacheKey k) with
  | none => simp [hg] at h
  | some s =>
    cases s with
    | raw r => simp [hg] at h
    | entry d e =>
      simp only [hg] at h ⊢
      by_cases hlt : e < now
      · simp [hlt] at h
      · simp [hlt] at h ⊢
        exact h

/-- C8: after `cacheManager.clear`, looking up a key returns `none` when the
key carries the `varviz_` prefix, and the original stored item otherwise. -/
theorem cacheClear_frame (st : Store) (k : String) :
    getItem (cacheClear st) k =
      if k.startsWith "varviz_" then none else getItem st k := by
  unfold cacheClear
  rw [getItem_foldl_removeItem]
  by_cases hpre : k.startsWith "varviz_"
  · simp only [hpre, if_true]
    by_cases hmem : k ∈ (storeKeys st).filter (fun k => k.startsWith "varviz_")
    · simp [hmem]
    · have hk : k ∉ storeKeys st := by
        intro hkeys
        exact hmem (List.mem_filter.mpr ⟨hkeys, by simpa using hpre⟩)
      simp [hmem, getItem_eq_none_of_not_mem st k hk]
  · have hmem : k ∉ (storeKeys st).filter (fun k => k.startsWith "varviz_") := by
      intro hkm
      exact hpre (by simpa using (List.mem_filter.mp hkm).2)
    simp [hmem, hpre]

/-- Modelled from the spec: the Literature Cache & Miner (§4.4) is not part of
the frontend sources; only its cache store (`cacheManager`) is.  On a cache hit
it "returns the persisted value unchanged and performs no network/NLP work";
on a miss it queries the upstream miner once and "persists the result keyed by
the same tuple".  The third component counts upstream mining calls. -/
def litFetch (mine : String → Json) (now : Int) (k : String) (st : Store) :
    Json × Store × Nat :=
  match cacheGet now k st with
  | (some v, st') => (v, st', 0)
  | (none, st') => (mine k, cacheSet now k (mine k) 60 st', 1)

/-- C2 (amended): a cached entry is returned only while `now ≤ expiry`
(`expiry = set-time + ttl·60000 ms`); a lookup after the expiry removes the
entry from the store and returns `null`, i.e. entries are evicted lazily by
TTL, not only by explicit clear. -/
theorem cacheEntry_ttl_lifecycle (st : Store) (k : String) (d : Json)
    (ttl t0 t1 : Int) :
    (t1 ≤ t0 + ttl * 60000 →
      (cacheGet t1 k (cacheSet t0 k d ttl st)).1 = some d) ∧
    (t0 + ttl * 60000 < t1 →
      (cacheGet t1 k (cacheSet t0 k d ttl st)).1 = none ∧
      getItem (cacheGet t1 k (cacheSet t0 k d ttl st)).2 (cacheKey k) = none) := by
  constructor
  · intro h
    rw [cacheGet_cacheSet_le st k d ttl t0 t1 h]
  · intro h
    rw [cacheGet_cacheSet_gt st k d ttl t0 t1 h]
    exact ⟨rfl, getItem_removeItem_self _ _⟩

/-- C2 counterexample: an entry written with the default 60-minute TTL is
present immediately after the write, yet a lookup 3 600 001 ms later returns
`null` although no clear was ever performed — entries are evicted
automatically. -/
theorem cacheEviction_counterexample :
    (cacheGet 0 "g1" (cacheSet 0 "g1" (Json.str "v") 60 [])).1 = some (Json.str "v") ∧
    (cacheGet 3600001 "g1" (cacheSet 0 "g1" (Json.str "v") 60 [])).1 = none := by
  constructor
  · rw [cacheGet_cacheSet_le [] "g1" (Json.str "v") 60 0 0 (by decide)]
  · rw [cacheGet_cacheSet_gt [] "g1" (Json.str "v") 60 0 3600001 (by decide)]

/-- Witness for `cacheEntry_ttl_lifecycle` at `k = "lit"`, `ttl = 60`. -/
theorem cacheEntry_ttl_lifecycle_witness :
    (cacheGet 100 "lit" (cacheSet 0 "lit" (Json.num 1) 60 [])).1 = some (Json.num 1) ∧
    ((cacheGet 9999999 "lit" (cacheSet 0 "lit" (Json.num 1) 60 [])).1 = none ∧
      getItem (cacheGet 9999999 "lit" (cacheSet 0 "lit" (Json.num 1) 60 [])).2
        (cacheKey "lit") = none) :=
  ⟨(cacheEntry_ttl_lifecycle [] "lit" (Json.num 1) 60 0 100).1 (by decide),
   (cacheEntry_ttl_lifecycle [] "lit" (Json.num 1) 60 0 9999999).2 (by decide)⟩

/-- C4 (amended): within the entry's TTL window the cache round trip returns
the persisted value unchanged with the store untouched, and a second identical
`litFetch` request is served from the cache with zero additional upstream
mining calls. -/
theorem cacheRoundTrip_within_ttl :
    (∀ (st : Store) (k : String) (d : Json) (ttl t0 t1 : Int),
        t1 ≤ t0 + ttl * 60000 →
        cacheGet t1 k (cacheSet t0 k d ttl st) = (some d, cacheSet t0 k d ttl st)) ∧
    (∀ (mine : String → Json) (now : Int) (k : String) (st : Store),
        litFetch mine now k (litFetch mine now k st).2.1 =
          ((litFetch mine now k st).1, (litFetch mine now k st).2.1, 0)) := by
  constructor
  · exact cacheGet_cacheSet_le
  · intro mine now k st
    cases h : cacheGet now k st with
    | mk v? st' =>
      cases v? with
      | some v =>
        have he : cacheGet now k st = (some v, st) :=
          cacheGet_fst_some now k st v (by rw [h])
        have hst : st' = st := by
          have h2 := h.symm.trans he
          exact (Prod.mk.injEq _ _ _ _ ▸ h2).2
        subst hst
        simp only [litFetch, h]
      | none =>
        have hfresh : cacheGet now k (cacheSet now k (mine k) 60 st') =
            (some (mine k), cacheSet now k (mine k) 60 st') :=
          cacheGet_cacheSet_le st' k (mine k) 60 now now (by omega)
        simp only [litFetch, h, hfresh]

/-- C4 counterexample: storing `7` under key `"lq"` with a 1-minute TTL and
looking it up 60 001 ms later (no clear in between) returns `null`, not the
persisted value. -/
theorem cacheRoundTrip_counterexample :
    (cacheGet 60006 "lq" (cacheSet 5 "lq" (Json.num 7) 1 [])).1 = none := by
  rw [cacheGet_cacheSet_gt [] "lq" (Json.num 7) 1 5 60006 (by decide)]

/-- Witness for `cacheRoundTrip_within_ttl` at concrete keys and times. -/
theorem cacheRoundTrip_within_ttl_witness :
    cacheGet 3 "w" (cacheSet 2 "w" (Json.bool true) 60 []) =
      (some (Json.bool true), cacheSet 2 "w" (Json.bool true) 60 []) ∧
    litFetch (fun _ => Json.num 9) 0 "w2" (litFetch (fun _ => Json.num 9) 0 "w2" []).2.1 =
      ((litFetch (fun _ => Json.num 9) 0 "w2" []).1,
        (litFetch (fun _ => Json.num 9) 0 "w2" []).2.1, 0) :=
  ⟨cacheRoundTrip_within_ttl.1 [] "w" (Json.bool true) 60 2 3 (by decide),
   cacheRoundTrip_within_ttl.2 (fun _ => Json.num 9) 0 "w2" []⟩

/-- A genomic variant as entered by the caller (`VariantInput` in
`frontend/utils/api.ts` / `Variant` in `VariantInput.tsx`).  The position is
a JS number produced by `parseInt`; `none` models `NaN`. -/
structure Variant where
  chromosome : String
  position : Option Int
  reference : String
  alternate : String
deriving DecidableEq

/-- The `AnalysisResult` record of `frontend/utils/api.ts` (fields consumed by
the batch claims; the optional payloads are opaque JSON). -/
structure AnalysisResult where
  gene : String
  variants : List Variant
  mapped_variants : Option (List Json)
  literature : Option (List Json)
  timestamp : Int

/-- The batch slices taken by the loop of `analyzeVariantsBatch`
(`frontend/utils/api.ts` lines 238–259): `totalBatches =
Math.ceil(variants.length / batchSize)` and batch `i` is
`variants.slice(i * batchSize, (i + 1) * batchSize)`. -/
def batchSlices (variants : List Variant) (batchSize : Nat) : List (List Variant) :=
  (List.range ((variants.length + batchSize - 1) / batchSize)).map
    (fun i => (variants.drop (i * batchSize)).take batchSize)

/-- `analyzeVariantsBatch` from `frontend/utils/api.ts`: processes the slices
sequentially through `analyzeVariants` (here the abstract collaborator
`analyze`, since the server side is external) and collects the results in
order. -/
def analyzeVariantsBatch (analyze : String → List Variant → AnalysisResult)
    (gene : String) (variants : List Variant) (batchSize : Nat) : List AnalysisResult :=
  (batchSlices variants batchSize).map (analyze gene)

lemma join_batchSlices_bounded (b : Nat) (hb : 1 ≤ b) :
    ∀ (n : Nat) (l : List Variant), l.length ≤ n → (batchSlices l b).flatten = l := by
  intro n
  induction n with
  | zero =>
    intro l hl
    have hnil : l = [] := List.eq_nil_of_length_eq_zero (by omega)
    subst hnil
    simp [batchSlices, Nat.div_eq_of_lt (show 0 + b - 1 < b by omega)]
  | succ n ih =>
    intro l hl
    cases l with
    | nil => simp [batchSlices, Nat.div_eq_of_lt (show 0 + b - 1 < b by omega)]
    | cons x xs =>
      have hlen1 : 1 ≤ (x :: xs).length := by simp
      have hceil : ((x :: xs).length + b - 1) / b = ((x :: xs).length - 1) / b + 1 := by
        have h1 : (x :: xs).length + b - 1 = ((x :: xs).length - 1) + b := by omega
        rw [h1, Nat.add_div_right _ (show 0 < b by omega)]
      have htail : (((x :: xs).drop b).length + b - 1) / b = ((x :: xs).length - 1) / b := by
        rw [List.length_drop]
        by_cases hbig : b ≤ (x :: xs).length
        · congr 1
          omega
        · have h5 : (x :: xs).length - b = 0 := by omega
          rw [h5, Nat.div_eq_of_lt (by omega), Nat.div_eq_of_lt (by omega)]
      have hcomp : ∀ i, ((x :: xs).drop (Nat.succ i * b)).take b =
          (((x :: xs).drop b).drop (i * b)).take b := by
        intro i
        rw [List.drop_drop, Nat.succ_mul, Nat.add_comm (i * b) b]
      have hdroplen : ((x :: xs).drop b).length ≤ n := by
        rw [List.length_drop]
        omega
      rw [batchSlices, hceil, List.range_succ_eq_map, List.map_cons, List.flatten_cons,
        List.map_map]
      have hmap : (List.range (((x :: xs).length - 1) / b)).map
            ((fun i => ((x :: xs).drop (i * b)).take b) ∘ Nat.succ) =
          batchSlices ((x :: xs).drop b) b := by
        rw [batchSlices, htail]
        refine List.map_congr_left ?_
        intro i _
        simpa using hcomp i
      rw [hmap, ih ((x :: xs).drop b) hdroplen]
      simp

lemma join_batchSlices (b : Nat) (hb : 1 ≤ b) (l : List Variant) :
    (batchSlices l b).flatten = l :=
  join_batchSlices_bounded b hb l.length l le_rfl

/-- C6: for batch size `b ≥ 1`, `analyzeVariantsBatch` partitions the input
into `ceil(n / b)` contiguous slices in caller order and, assuming the
analysis collaborator echoes each batch's variant sequence, the concatenation
of the per-batch variant sequences of the returned results equals the caller
input in its original order. -/
theorem batchAnalysis_preserves_order
    (analyze : String → List Variant → AnalysisResult) (gene : String)
    (variants : List Variant) (batchSize : Nat) (hb : 1 ≤ batchSize)
    (hecho : ∀ g batch, (analyze g batch).variants = batch) :
    (analyzeVariantsBatch analyze gene variants batchSize).length =
      (variants.length + batchSize - 1) / batchSize ∧
    ((analyzeVariantsBatch analyze gene variants batchSize).map
        (fun r => r.variants)).flatten = variants := by
  constructor
  · simp [analyzeVariantsBatch, batchSlices]
  · have hmap : (analyzeVariantsBatch analyze gene variants batchSize).map
        (fun r => r.variants) = batchSlices variants batchSize := by
      rw [analyzeVariantsBatch, List.map_map]
      conv_rhs => rw [← List.map_id (batchSlices variants batchSize)]
      refine List.map_congr_left ?_
      intro bch _
      simpa using hecho gene bch
    rw [hmap, join_batchSlices batchSize hb variants]

/-- Witness for `batchAnalysis_preserves_order`: three TP53 variants in
batches of two. -/
theorem batchAnalysis_preserves_order_witness :
    (analyzeVariantsBatch (fun g bch => ⟨g, bch, none, none, 0⟩) "TP53"
        [⟨"17", some 7577120, "G", "A"⟩, ⟨"17", some 7577538, "C", "T"⟩,
          ⟨"17", some 7578406, "C", "T"⟩] 2).length =
      (([⟨"17", some 7577120, "G", "A"⟩, ⟨"17", some 7577538, "C", "T"⟩,
          ⟨"17", some 7578406, "C", "T"⟩] : List Variant).length + 2 - 1) / 2 ∧
    ((analyzeVariantsBatch (fun g bch => ⟨g, bch, none, none, 0⟩) "TP53"
        [⟨"17", some 7577120, "G", "A"⟩, ⟨"17", some 7577538, "C", "T"⟩,
          ⟨"17", some 7578406, "C", "T"⟩] 2).map (fun r => r.variants)).flatten =
      [⟨"17", some 7577120, "G", "A"⟩, ⟨"17", some 7577538, "C", "T"⟩,
        ⟨"17", some 7578406, "C", "T"⟩] :=
  batchAnalysis_preserves_order (fun g bch => ⟨g, bch, none, none, 0⟩) "TP53"
    [⟨"17", some 7577120, "G", "A"⟩, ⟨"17", some 7577538, "C", "T"⟩,
      ⟨"17", some 7578406, "C", "T"⟩] 2 (by omega) (fun g bch => rfl)

/-- The response consumed by `getGeneSuggestions`. -/
structure SuggestResponse where
  suggestions : List String

/-- An upstream HTTP failure of the suggestion request. -/
inductive ApiFailure where
  | http (status : Nat) (msg : String)
  | network (msg : String)

/-- `getGeneSuggestions` from `frontend/utils/api.ts` lines 142–156: returns
`response.data.suggestions` on success and catches every error, logging it and
returning the empty list. -/
def getGeneSuggestions (resp : Except ApiFailure SuggestResponse) : List String :=
  match resp with
  | .ok r => r.suggestions
  | .error _ => []

/-- C10: `getGeneSuggestions` is total over upstream outcomes: every failure
yields the empty list and every success yields the response's `suggestions`
field; no error propagates to the caller. -/
theorem getGeneSuggestions_total :
    (∀ e : ApiFailure, getGeneSuggestions (.error e) = []) ∧
    (∀ r : SuggestResponse, getGeneSuggestions (.ok r) = r.suggestions) :=
  ⟨fun _ => rfl, fun _ => rfl⟩

/-- What a table cell or score renderer displays: `'N/A'` or a formatted
number (the numeric formatting itself is abstracted away). -/
inductive Rendered where
  | na
  | value (q : ℚ)
deriving DecidableEq

/-- `renderScore` from `VariantTable.tsx` lines 203–233: `if (score === null
|| score === undefined) return 'N/A';` — otherwise the score is formatted. -/
def renderScore (score : Option ℚ) : Rendered :=
  match score with
  | none => .na
  | some s => .value s

/-- The gnomAD table cell from `VariantTable.tsx` lines 353–355:
`variant.gnomad_af ? variant.gnomad_af.toExponential(2) : 'N/A'` — a JS
truthiness test, under which the number `0` is falsy. -/
def gnomadCell (af : Option ℚ) : Rendered :=
  match af with
  | none => .na
  | some v => if v = 0 then .na else .value v

/-- The `headCells` formatters from `VariantTable.tsx` lines 51–85 (used for
CSV export): `(val) => val ? val.toFixed(..) : 'N/A'` — again a truthiness
test. -/
def headCellFormat (val : Option ℚ) : Rendered :=
  match val with
  | none => .na
  | some v => if v = 0 then .na else .value v

/-- C3 counterexample: a present gnomAD allele frequency equal to `0` is
rendered as `'N/A'` by the table cell and by the CSV formatter, although the
field is not null/undefined. -/
theorem zeroValue_rendered_na_counterexample :
    gnomadCell (some 0) = Rendered.na ∧ headCellFormat (some 0) = Rendered.na :=
  ⟨rfl, rfl⟩

/-- C3 (amended): `renderScore` prints `'N/A'` exactly for absent scores (so a
CADD/SIFT/PolyPhen score of `0` is displayed as a value), but the gnomAD table
cell and the `headCells` CSV formatters print `'N/A'` for absent *or zero*
values, because they test JS truthiness. -/
theorem na_rendering_rules :
    (∀ s : Option ℚ, renderScore s = .na ↔ s = none) ∧
    (∀ a : Option ℚ, gnomadCell a = .na ↔ (a = none ∨ a = some 0)) ∧
    (∀ v : Option ℚ, headCellFormat v = .na ↔ (v = none ∨ v = some 0)) := by
  refine ⟨fun s => ?_, fun a => ?_, fun v => ?_⟩
  · cases s <;> simp [renderScore]
  · cases a with
    | none => simp [gnomadCell]
    | some q =>
      by_cases hq : q = 0 <;> simp [gnomadCell, hq]
  · cases v with
    | none => simp [headCellFormat]
    | some q =>
      by_cases hq : q = 0 <;> simp [headCellFormat, hq]

/-- The lowercase hex digit characters produced by JS `Number.toString(16)`. -/
def hexDigitChar (n : Nat) : Char :=
  if n < 10 then Char.ofNat (48 + n) else Char.ofNat (87 + n)

/-- JS `n.toString(16)` for non-negative integers (most significant digit
first, lowercase). -/
def natToHexChars (n : Nat) : List Char :=
  if _h : n < 16 then [hexDigitChar n]
  else natToHexChars (n / 16) ++ [hexDigitChar (n % 16)]
termination_by n
decreasing_by
  simp_wf
  exact Nat.div_lt_self (by omega) (by omega)

/-- The padding step of `rgbToHex` (`colors.ts` lines 164–169):
`hex.length === 1 ? '0' + hex : hex`. -/
def pad2 (cs : List Char) : List Char :=
  if cs.length = 1 then '0' :: cs else cs

/-- `rgbToHex` from `frontend/utils/colors.ts` lines 164–169:
`'#' + [r, g, b].map(x => pad(x.toString(16))).join('')`. -/
def rgbToHex (r g b : Nat) : String :=
  ⟨'#' :: (pad2 (natToHexChars r) ++ pad2 (natToHexChars g) ++ pad2 (natToHexChars b))⟩

/-- One character of the character class `[a-f\d]` with the `i` flag, as used
by the `hexToRgb` regular expression. -/
def isHexDigit (c : Char) : Bool :=
  (48 ≤ c.toNat && c.toNat ≤ 57) || (97 ≤ c.toNat && c.toNat ≤ 102) ||
    (65 ≤ c.toNat && c.toNat ≤ 70)

/-- `parseInt(_, 16)` on a single hex digit character. -/
def hexDigitVal (c : Char) : Nat :=
  if 48 ≤ c.toNat ∧ c.toNat ≤ 57 then c.toNat - 48
  else if 97 ≤ c.toNat ∧ c.toNat ≤ 102 then c.toNat - 87
  else if 65 ≤ c.toNat ∧ c.toNat ≤ 70 then c.toNat - 55
  else 0

/-- The `{r, g, b}` object returned by `hexToRgb`. -/
structure RGB where
  r : Nat
  g : Nat
  b : Nat
deriving DecidableEq

/-- `hexToRgb` from `frontend/utils/colors.ts` lines 155–162: matches
`/^#?([a-f\d]{2})([a-f\d]{2})([a-f\d]{2})$/i` and parses each two-character
group with `parseInt(_, 16)`, returning `null` when the pattern fails. -/
def hexToRgb (s : String) : Option RGB :=
  let cs := match s.data with
    | '#' :: rest => rest
    | rest => rest
  match cs with
  | [c1, c2, c3, c4, c5, c6] =>
    if isHexDigit c1 && isHexDigit c2 && isHexDigit c3 && isHexDigit c4 &&
        isHexDigit c5 && isHexDigit c6 then
      some ⟨16 * hexDigitVal c1 + hexDigitVal c2,
            16 * hexDigitVal c3 + hexDigitVal c4,
            16 * hexDigitVal c5 + hexDigitVal c6⟩
    else none
  | _ => none

lemma hexDigitChar_spec (n : Nat) (h : n < 16) :
    isHexDigit (hexDigitChar n) = true ∧ hexDigitVal (hexDigitChar n) = n := by
  interval_cases n <;> exact ⟨by decide, by decide⟩

lemma natToHexChars_lt16 (n : Nat) (h : n < 16) :
    natToHexChars n = [hexDigitChar n] := by
  rw [natToHexChars, dif_pos h]

lemma natToHexChars_ge16 (n : Nat) (h : ¬ n < 16) :
    natToHexChars n = natToHexChars (n / 16) ++ [hexDigitChar (n % 16)] := by
  rw [natToHexChars]
  exact dif_neg h

lemma pad2_natToHexChars (n : Nat) (hn : n ≤ 255) :
    pad2 (natToHexChars n) = [hexDigitChar (n / 16), hexDigitChar (n % 16)] := by
  by_cases h : n < 16
  · have h016 : n / 16 = 0 := Nat.div_eq_of_lt h
    have hm : n % 16 = n := Nat.mod_eq_of_lt h
    rw [natToHexChars_lt16 n h, h016, hm]
    have h0 : hexDigitChar 0 = '0' := by decide
    simp [pad2, h0]
  · have h16 : n / 16 < 16 := by omega
    rw [natToHexChars_ge16 n h, natToHexChars_lt16 (n / 16) h16]
    simp [pad2]

lemma decode_pair (n : Nat) (hn : n ≤ 255) :
    16 * hexDigitVal (hexDigitChar (n / 16)) + hexDigitVal (hexDigitChar (n % 16)) = n := by
  rw [(hexDigitChar_spec (n / 16) (by omega)).2, (hexDigitChar_spec (n % 16) (by omega)).2]
  omega

lemma hexToRgb_concrete (c1 c2 c3 c4 c5 c6 : Char)
    (h : (isHexDigit c1 && isHexDigit c2 && isHexDigit c3 && isHexDigit c4 &&
      isHexDigit c5 && isHexDigit c6) = true) :
    hexToRgb ⟨'#' :: ([c1, c2] ++ [c3, c4] ++ [c5, c6])⟩ =
      some ⟨16 * hexDigitVal c1 + hexDigitVal c2,
            16 * hexDigitVal c3 + hexDigitVal c4,
            16 * hexDigitVal c5 + hexDigitVal c6⟩ := by
  show hexToRgb ⟨['#', c1, c2, c3, c4, c5, c6]⟩ = _
  unfold hexToRgb
  simp [h]

/-- C9: the color conversion round trip — for all byte components,
`hexToRgb(rgbToHex(r, g, b))` succeeds and returns exactly `{r, g, b}`. -/
theorem hexToRgb_rgbToHex (r g b : Nat) (hr : r ≤ 255) (hg : g ≤ 255)
    (hb : b ≤ 255) : hexToRgb (rgbToHex r g b) = some ⟨r, g, b⟩ := by
  unfold rgbToHex
  rw [pad2_natToHexChars r hr, pad2_natToHexChars g hg, pad2_natToHexChars b hb]
  rw [hexToRgb_concrete _ _ _ _ _ _ (by
    simp [(hexDigitChar_spec (r / 16) (by omega)).1, (hexDigitChar_spec (r % 16) (by omega)).1,
      (hexDigitChar_spec (g / 16) (by omega)).1, (hexDigitChar_spec (g % 16) (by omega)).1,
      (hexDigitChar_spec (b / 16) (by omega)).1, (hexDigitChar_spec (b % 16) (by omega)).1])]
  rw [decode_pair r hr, decode_pair g hg, decode_pair b hb]

/-- Witness for `hexToRgb_rgbToHex` at `(18, 52, 250)`. -/
theorem hexToRgb_rgbToHex_witness :
    hexToRgb (rgbToHex 18 52 250) = some ⟨18, 52, 250⟩ :=
  hexToRgb_rgbToHex 18 52 250 (by decide) (by decide) (by decide)

/-- Decimal value of a digit string (the value `parseInt` returns on an
all-digit input). -/
def digitsToNat (ds : List Char) : Nat :=
  ds.foldl (fun acc c => 10 * acc + (c.toNat - 48)) 0

/-- One attempt of the unanchored regular expression
`/chr(\d+):g\.(\d+)([A-Z])>([A-Z])/` of `parseHGVS`
(`VariantInput.tsx` lines 120–139) at the start of `cs`. -/
def matchHGVSAt (cs : List Char) : Option Variant :=
  match cs with
  | 'c' :: 'h' :: 'r' :: rest =>
    let ds1 := rest.takeWhile Char.isDigit
    let r1 := rest.dropWhile Char.isDigit
    if ds1.isEmpty then none
    else
      match r1 with
      | ':' :: 'g' :: '.' :: rest2 =>
        let ds2 := rest2.takeWhile Char.isDigit
        let r2 := rest2.dropWhile Char.isDigit
        if ds2.isEmpty then none
        else
          match r2 with
          | rc :: '>' :: ac :: _ =>
            if rc.isUpper && ac.isUpper then
              some ⟨⟨ds1⟩, some (digitsToNat ds2 : Int), ⟨[rc]⟩, ⟨[ac]⟩⟩
            else none
          | _ => none
      | _ => none
  | _ => none

/-- Regex search: try the pattern at every start position, first match wins. -/
def searchHGVS : List Char → Option Variant
  | [] => none
  | c :: cs =>
    match matchHGVSAt (c :: cs) with
    | some v => some v
    | none => searchHGVS cs

/-- `parseHGVS` from `VariantInput.tsx` lines 120–139: on a match returns the
captured variant, otherwise sets an error message and returns `null`. -/
def parseHGVS (s : String) : Option Variant := searchHGVS s.data

/-- JS `String.split` with a single-character separator. -/
def splitOnChar (sep : Char) : List Char → List (List Char)
  | [] => [[]]
  | c :: rest =>
    match splitOnChar sep rest with
    | [] => [[]]
    | grp :: grps => if c = sep then [] :: grp :: grps else (c :: grp) :: grps

/-- JS `s.split(sep)` on strings. -/
def jsSplit (sep : Char) (s : String) : List String :=
  (splitOnChar sep s.data).map (fun cs => ⟨cs⟩)

/-- JS `String.trim`: strip leading and trailing whitespace. -/
def jsTrimChars (cs : List Char) : List Char :=
  ((cs.dropWhile Char.isWhitespace).reverse.dropWhile Char.isWhitespace).reverse

/-- JS `s.trim()` on strings. -/
def jsTrim (s : String) : String := ⟨jsTrimChars s.data⟩

/-- The non-blank input lines of `addHGVSVariants`:
`hgvsInput.split('\n').filter(line => line.trim())`. -/
def hgvsLines (input : String) : List String :=
  (jsSplit '\n' input).filter (fun l => !(jsTrimChars l.data).isEmpty)

/-- The collection loop of `addHGVSVariants` (`VariantInput.tsx` lines
159–175): parse each line (trimmed) and keep the successful parses. -/
def collectHGVS (lines : List String) : List Variant :=
  lines.filterMap (fun l => parseHGVS (jsTrim l))

/-- `addHGVSVariants`: appends the newly parsed variants to the existing list. -/
def addHGVSVariants (existing : List Variant) (input : String) : List Variant :=
  existing ++ collectHGVS (hgvsLines input)

/-- JS `String.replace` with a string pattern: remove the first occurrence of
`pat` (used as `chrom.replace('chr', '')`). -/
def stripFirst (pat : List Char) : List Char → List Char
  | [] => []
  | c :: cs =>
    if List.take pat.length (c :: cs) = pat then List.drop pat.length (c :: cs)
    else c :: stripFirst pat cs

/-- `chrom.replace('chr', '')` from `parseVCF`. -/
def replaceChr (s : String) : String := ⟨stripFirst "chr".data s.data⟩

/-- JS `parseInt(s)`: skip leading whitespace, optional sign, then the longest
digit run; `none` models `NaN`. -/
def parseIntJS (s : String) : Option Int :=
  let cs := s.data.dropWhile (fun c => c.isWhitespace)
  match cs with
  | '-' :: rest =>
    let ds := rest.takeWhile Char.isDigit
    if ds.isEmpty then none else some (-(digitsToNat ds : Int))
  | '+' :: rest =>
    let ds := rest.takeWhile Char.isDigit
    if ds.isEmpty then none else some (digitsToNat ds : Int)
  | rest =>
    let ds := rest.takeWhile Char.isDigit
    if ds.isEmpty then none else some (digitsToNat ds : Int)

/-- One line of `parseVCF` (`VariantInput.tsx` lines 92–117): comment and
blank lines are skipped; a data line is split on tabs, destructured into
`[chrom, pos, , ref, alt]`, and pushed only when all four are truthy
(non-empty); the first alternate allele is taken. -/
def parseVCFLine (line : String) : Option Variant :=
  if (match line.data with | '#' :: _ => true | _ => false) ||
      (jsTrimChars line.data).isEmpty then none
  else
    let fields := jsSplit '\t' line
    let chrom := fields.getD 0 ""
    let pos := fields.getD 1 ""
    let ref := fields.getD 3 ""
    let alt := fields.getD 4 ""
    if !chrom.data.isEmpty && !pos.data.isEmpty && !ref.data.isEmpty &&
        !alt.data.isEmpty then
      some ⟨replaceChr chrom, parseIntJS pos, ref, (jsSplit ',' alt).getD 0 alt⟩
    else none

/-- `parseVCF`: split the pasted content on newlines and collect the parsed
lines. -/
def parseVCF (content : String) : List Variant :=
  (jsSplit '\n' content).filterMap parseVCFLine

/-- C5 counterexample: `parseHGVS` accepts `chr1:g.0X>Y` — reference `X` and
alternate `Y` are not allele characters and position `0` is non-positive, yet
the variant is produced rather than rejected with a structured reason. -/
theorem hgvs_no_validation_counterexample :
    parseHGVS "chr1:g.0X>Y" = some ⟨"1", some 0, "X", "Y"⟩ := by decide

/-- C5 (amended): a line that fails its parser is skipped individually — it
never aborts the rest of the batch, and every line that parses contributes its
variant — but no allele-alphabet or positivity validation is performed: the
HGVS parser accepts any uppercase letters and position 0, and rejection is
reported only through a single shared error message. -/
theorem perLine_parsing_isolation :
    (∀ (pre post : List String) (bad : String), parseHGVS (jsTrim bad) = none →
      collectHGVS (pre ++ bad :: post) = collectHGVS (pre ++ post)) ∧
    (∀ (lines : List String) (l : String) (v : Variant), l ∈ lines →
      parseHGVS (jsTrim l) = some v → v ∈ collectHGVS lines) ∧
    (∀ (pre post : List String) (bad : String), parseVCFLine bad = none →
      (pre ++ bad :: post).filterMap parseVCFLine =
        (pre ++ post).filterMap parseVCFLine) := by
  refine ⟨fun pre post bad hbad => ?_, fun lines l v hl hv => ?_, fun pre post bad hbad => ?_⟩
  · simp [collectHGVS, List.filterMap_append, List.filterMap_cons, hbad]
  · exact List.mem_filterMap.mpr ⟨l, hl, hv⟩
  · simp [List.filterMap_append, List.filterMap_cons, hbad]

/-- Witness for `perLine_parsing_isolation`: a garbage line between two valid
HGVS lines is skipped, a valid line's variant is kept, and a VCF comment line
is skipped. -/
theorem perLine_parsing_isolation_witness :
    collectHGVS (["chr7:g.140453136A>T"] ++ "garbage" :: ["chr17:g.7577120G>A"]) =
      collectHGVS (["chr7:g.140453136A>T"] ++ ["chr17:g.7577120G>A"]) ∧
    (⟨"17", some 7577120, "G", "A"⟩ : Variant) ∈ collectHGVS ["chr17:g.7577120G>A"] ∧
    (["17\t10\t.\tG\tA"] ++ "#comment" :: []).filterMap parseVCFLine =
      (["17\t10\t.\tG\tA"] ++ []).filterMap parseVCFLine :=
  ⟨perLine_parsing_isolation.1 ["chr7:g.140453136A>T"] ["chr17:g.7577120G>A"]
      "garbage" (by decide),
   perLine_parsing_isolation.2.1 ["chr17:g.7577120G>A"] "chr17:g.7577120G>A"
      ⟨"17", some 7577120, "G", "A"⟩ (by decide) (by decide),
   perLine_parsing_isolation.2.2 ["17\t10\t.\tG\tA"] [] "#comment" (by decide)⟩

/-- The five pathogenicity classes used throughout the frontend
(`VariantTable.tsx` color/icon maps). -/
inductive PathClass where
  | pathogenic
  | likely_pathogenic
  | uncertain_significance
  | likely_benign
  | benign
deriving DecidableEq

/-- Modelled from the spec: the Annotation Aggregator's derived pathogenicity
classification (§4.3) is backend code, absent from the frontend sources.
Policy, first matching rule wins, evaluated in this order: an explicit ClinVar
"pathogenic"/"benign" classification is used verbatim; otherwise CADD ≥ 30 →
`likely_pathogenic`; otherwise CADD < 10 AND population frequency > 1% →
`likely_benign`; else `uncertain_significance`. -/
def classifyScores (cadd freq : Option ℚ) : PathClass :=
  match cadd with
  | some c =>
    if 30 ≤ c then .likely_pathogenic
    else if c < 10 then
      match freq with
      | some f => if 1 / 100 < f then .likely_benign else .uncertain_significance
      | none => .uncertain_significance
    else .uncertain_significance
  | none => .uncertain_significance

/-- Modelled from the spec: rule 1 — an explicit ClinVar "pathogenic"/"benign"
classification wins; otherwise the score cascade `classifyScores` decides. -/
def classifyPathogenicity (clinvar : Option PathClass) (cadd : Option ℚ)
    (freq : Option ℚ) : PathClass :=
  match clinvar with
  | some .pathogenic => .pathogenic
  | some .benign => .benign
  | _ => classifyScores cadd freq

/-- C1: the classification rules fire in the documented order for every
combination of available/absent score fields, and the four spec scenarios
produce the expected classes. -/
theorem classification_policy :
    (∀ (c f : Option ℚ),
      classifyPathogenicity (some .pathogenic) c f = .pathogenic) ∧
    (∀ (c f : Option ℚ),
      classifyPathogenicity (some .benign) c f = .benign) ∧
    (∀ (cv : Option PathClass) (c : ℚ) (f : Option ℚ),
      cv ≠ some .pathogenic → cv ≠ some .benign → 30 ≤ c →
      classifyPathogenicity cv (some c) f = .likely_pathogenic) ∧
    (∀ (cv : Option PathClass) (c f : ℚ),
      cv ≠ some .pathogenic → cv ≠ some .benign → c < 10 → 1 / 100 < f →
      classifyPathogenicity cv (some c) (some f) = .likely_benign) ∧
    (∀ (cv : Option PathClass) (cadd freq : Option ℚ),
      cv ≠ some .pathogenic → cv ≠ some .benign →
      (∀ c : ℚ, cadd = some c → c < 30) →
      (∀ (c f : ℚ), cadd = some c → freq = some f → ¬(c < 10 ∧ 1 / 100 < f)) →
      classifyPathogenicity cv cadd freq = .uncertain_significance) ∧
    (classifyPathogenicity none (some 35) (some (1 / 10000)) = .likely_pathogenic ∧
      classifyPathogenicity none (some 5) (some (2 / 100)) = .likely_benign ∧
      classifyPathogenicity (some .benign) (some 40) none = .benign ∧
      classifyPathogenicity none none none = .uncertain_significance) := by
  have hcatch : ∀ (cv : Option PathClass), cv ≠ some .pathogenic →
      cv ≠ some .benign → ∀ (cadd freq : Option ℚ),
      classifyPathogenicity cv cadd freq = classifyScores cadd freq := by
    intro cv hp hbn cadd freq
    match cv with
    | none => rfl
    | some .pathogenic => exact absurd rfl hp
    | some .benign => exact absurd rfl hbn
    | some .likely_pathogenic => rfl
    | some .uncertain_significance => rfl
    | some .likely_benign => rfl
  refine ⟨fun c f => rfl, fun c f => rfl, ?_, ?_, ?_, ?_, ?_, ?_, ?_⟩
  · intro cv c f hp hbn hc
    rw [hcatch cv hp hbn]
    show (if 30 ≤ c then PathClass.likely_pathogenic
      else if c < 10 then
        match f with
        | some q => if 1 / 100 < q then PathClass.likely_benign
            else PathClass.uncertain_significance
        | none => PathClass.uncertain_significance
      else PathClass.uncertain_significance) = PathClass.likely_pathogenic
    rw [if_pos hc]
  · intro cv c f hp hbn hc hf
    have hc30 : ¬ 30 ≤ c := by linarith
    rw [hcatch cv hp hbn]
    show (if 30 ≤ c then PathClass.likely_pathogenic
      else if c < 10 then
        (if 1 / 100 < f then PathClass.likely_benign
          else PathClass.uncertain_significance)
      else PathClass.uncertain_significance) = PathClass.likely_benign
    rw [if_neg hc30, if_pos hc, if_pos hf]
  · intro cv cadd freq hp hbn h30 hlb
    rw [hcatch cv hp hbn]
    match cadd with
    | none => rfl
    | some c =>
      have hc30 : ¬ 30 ≤ c := by
        have := h30 c rfl
        linarith
      match freq with
      | none =>
        show (if 30 ≤ c then PathClass.likely_pathogenic
          else if c < 10 then PathClass.uncertain_significance
          else PathClass.uncertain_significance) = PathClass.uncertain_significance
        rw [if_neg hc30]
        by_cases hc10 : c < 10
        · rw [if_pos hc10]
        · rw [if_neg hc10]
      | some q =>
        have hq : ¬ (c < 10 ∧ 1 / 100 < q) := hlb c q rfl rfl
        show (if 30 ≤ c then PathClass.likely_pathogenic
          else if c < 10 then
            (if 1 / 100 < q then PathClass.likely_benign
              else PathClass.uncertain_significance)
          else PathClass.uncertain_significance) = PathClass.uncertain_significance
        rw [if_neg hc30]
        by_cases hc10 : c < 10
        · rw [if_pos hc10, if_neg (fun hqq => hq ⟨hc10, hqq⟩)]
        · rw [if_neg hc10]
  · show classifyScores (some 35) (some (1 / 10000)) = PathClass.likely_pathogenic
    show (if (30 : ℚ) ≤ 35 then PathClass.likely_pathogenic
      else if (35 : ℚ) < 10 then
        (if (1 : ℚ) / 100 < 1 / 10000 then PathClass.likely_benign
          else PathClass.uncertain_significance)
      else PathClass.uncertain_significance) = PathClass.likely_pathogenic
    rw [if_pos (by norm_num)]
  · show classifyScores (some 5) (some (2 / 100)) = PathClass.likely_benign
    show (if (30 : ℚ) ≤ 5 then PathClass.likely_pathogenic
      else if (5 : ℚ) < 10 then
        (if (1 : ℚ) / 100 < 2 / 100 then PathClass.likely_benign
          else PathClass.uncertain_significance)
      else PathClass.uncertain_significance) = PathClass.likely_benign
    rw [if_neg (by norm_num), if_pos (by norm_num), if_pos (by norm_num)]
  · rfl
  · rfl

/-- Witness for `classification_policy`: the hypothesised rules fired at
concrete inputs. -/
theorem classification_policy_witness :
    classifyPathogenicity (some .likely_benign) (some 31) none =
      PathClass.likely_pathogenic ∧
    classifyPathogenicity none (some 5) (some (3 / 100)) = PathClass.likely_benign ∧
    classifyPathogenicity (some .uncertain_significance) (some 20) (some (2 / 100)) =
      PathClass.uncertain_significance :=
  ⟨classification_policy.2.2.1 (some .likely_benign) 31 none (by decide) (by decide)
      (by norm_num),
   classification_policy.2.2.2.1 none 5 (3 / 100) (by decide) (by decide)
      (by norm_num) (by norm_num),
   classification_policy.2.2.2.2.1 (some .uncertain_significance) (some 20)
      (some (2 / 100)) (by decide) (by decide)
      (by intro c hc; injection hc with h; rw [← h]; norm_num)
      (by intro c f hc hf; injection hc with h1; injection hf with h2;
          rw [← h1, ← h2]; norm_num)⟩

/-- The options record of `analyze` (`AnalysisOptions` in
`frontend/utils/api.ts`). -/
structure AnalysisOptions where
  include_literature : Bool
  include_structure : Bool
  include_conservation : Bool
  batch_size : Nat

/-- The gene context resolved for a request (spec §3). -/
structure GeneContext where
  symbol : String
  transcript : String
  uniprot : String
  proteinLength : Nat

/-- The deterministic upstream collaborators consumed by the pipeline
(spec §6): gene resolution, per-variant mapping/annotation, literature
mining. -/
structure PipelineEnv where
  resolve : String → Option GeneContext
  mapVariant : GeneContext → Variant → Json
  annotate : GeneContext → Variant → Json
  mineLit : String → Json

/-- Gene-resolution failure, the only fatal error (spec §4.5). -/
inductive AnalyzeError where
  | unknownGene (symbol : String)
deriving DecidableEq

/-- Modelled from the spec: the Literature Cache lookup (§4.4) of the backend
has no expiry — an entry is "eligible for eviction only by explicit
cache-clear". -/
def litLookup (cache : Store) (k : String) : Option Json :=
  match getItem cache k with
  | some (.entry d _) => some d
  | _ => none

/-- Modelled from the spec: the literature result for a key — the persisted
value on a hit, otherwise the freshly mined value (§4.4). -/
def minedLiterature (mine : String → Json) (cache : Store) (k : String) : Json :=
  match litLookup cache k with
  | some v => v
  | none => mine k

/-- Modelled from the spec: the Pipeline Orchestrator's `analyze` (§4.5, §6)
is backend code, absent from the frontend sources.  It resolves the gene
(fatal on failure), maps and annotates each variant in input order, optionally
mines literature through the cache, and stamps the completion time. -/
def analyze (env : PipelineEnv) (gene : String) (variants : List Variant)
    (opts : AnalysisOptions) (cache : Store) (now : Int) :
    Except AnalyzeError AnalysisResult :=
  match env.resolve gene with
  | none => .error (.unknownGene gene)
  | some ctx =>
    .ok ⟨gene, variants,
      (if opts.include_structure then
        some (variants.map (fun v => Json.arr [env.mapVariant ctx v, env.annotate ctx v]))
      else none),
      (if opts.include_literature then some [minedLiterature env.mineLit cache gene]
      else none),
      now⟩

/-- Every field of an `AnalysisResult` except the completion timestamp. -/
def stripTimestamp (r : AnalysisResult) :
    String × List Variant × Option (List Json) × Option (List Json) :=
  (r.gene, r.variants, r.mapped_variants, r.literature)

/-- C7: `analyze` is deterministic given identical gene, variants, options and
cache state — two calls at different times agree on every field except the
completion timestamp (and fail identically when gene resolution fails). -/
theorem analyze_deterministic (env : PipelineEnv) (gene : String)
    (variants : List Variant) (opts : AnalysisOptions) (cache : Store)
    (t1 t2 : Int) :
    (analyze env gene variants opts cache t1).map stripTimestamp =
      (analyze env gene variants opts cache t2).map stripTimestamp := by
  cases h : env.resolve gene <;> simp [analyze, h, stripTimestamp, Except.map]

end VarViz
